import Mathlib

/-!
Verification of `mkdocs/toc.py`: parsing an HTML table-of-contents fragment
into a tree of `AnchorLink` nodes.

The development shallowly embeds the Python module:

* `AnchorLink`, `TableOfContents` — the data model (`toc.py` classes).
  Python sets the `active` attribute dynamically on at most one node
  (`ret[0].active = True`); nodes never assigned are modelled as carrying
  `active = false`, matching the observable behaviour of reading the flag
  with a false default.
* `TOCParser` — the `HTMLParser` subclass.  Its event handlers are embedded
  one-to-one (`handle_starttag`, `handle_endtag`, `handle_data`,
  `handle_charref`, `handle_entityref`).  The underlying tokenizer
  (`html.parser.HTMLParser` with convert_charrefs set to false, a library
  dependency) is embedded as `tokenize`, which turns one line of HTML into
  start-tag / end-tag / data / charref / entityref events, faithful to the
  library on the tag-soup-free fragment language the module consumes.
* `_parse_html_table_of_contents` — the stack-based tree builder.  Python
  mutates: a node pushed on the `parents` stack is appended to its parent
  first and its `children` list is mutated in place afterwards.  The
  embedding keeps each open node as a stack frame `(title, url, children)`
  and attaches the completed node to the frame below when it is popped
  (`step`) or when input ends (`flushAux`); the resulting tree is the same.
-/

namespace Mkdocs

/-- A single entry in the table of contents (`AnchorLink` in `toc.py`):
title, url, ordered children, and the post-hoc `active` flag. -/
inductive AnchorLink : Type where
  | mk (title : String) (url : String) (children : List AnchorLink) (active : Bool)
deriving Repr

def AnchorLink.title : AnchorLink → String
  | .mk t _ _ _ => t

def AnchorLink.url : AnchorLink → String
  | .mk _ u _ _ => u

def AnchorLink.children : AnchorLink → List AnchorLink
  | .mk _ _ c _ => c

def AnchorLink.active : AnchorLink → Bool
  | .mk _ _ _ a => a

/-- Tokenizer events of `html.parser.HTMLParser` that `TOCParser` handles:
start tag (with attribute list), end tag, character data, character
reference (`&#NN;`), named entity reference (`&name;`). -/
inductive Event : Type where
  | startTag (tag : String) (attrs : List (String × String))
  | endTag (tag : String)
  | dataEv (s : String)
  | charrefEv (s : String)
  | entityrefEv (s : String)
deriving Repr, DecidableEq

/-- State of `TOCParser`: whether we are inside an anchor, the attribute
list of the last anchor start tag handled (the Python `self.attrs`, `None`
initially), and the accumulated title text. -/
structure TOCParser where
  in_anchor : Bool
  attrs : Option (List (String × String))
  title : String
deriving Repr, DecidableEq

/-- Embeds method handle_starttag of TOCParser: only an `<a>` start tag seen while not
already inside an anchor is acted on; it opens the anchor and stores the
tag attributes (`self.attrs = dict(attrs)`). -/
def handle_starttag (p : TOCParser) (tag : String) (attrs : List (String × String)) : TOCParser :=
  if p.in_anchor then p
  else if tag = "a" then { p with in_anchor := true, attrs := some attrs }
  else p

/-- Embeds method handle_endtag of TOCParser: an `</a>` end tag closes the anchor. -/
def handle_endtag (p : TOCParser) (tag : String) : TOCParser :=
  if tag = "a" then { p with in_anchor := false } else p

/-- Embeds method handle_data of TOCParser: text inside an open anchor is appended to the
title. -/
def handle_data (p : TOCParser) (s : String) : TOCParser :=
  if p.in_anchor then { p with title := p.title ++ s } else p

/-- Embeds method handle_entityref of TOCParser: re-emit the named reference verbatim as
text `&name;`. -/
def handle_entityref (p : TOCParser) (ref : String) : TOCParser :=
  handle_data p ("&" ++ ref ++ ";")

/-- Embeds method handle_charref of TOCParser: forwarded to `handle_entityref` with a
leading `#`, producing the literal text `&#NN;`. -/
def handle_charref (p : TOCParser) (ref : String) : TOCParser :=
  handle_entityref p ("#" ++ ref)

/-- Dispatch one tokenizer event to the matching `TOCParser` handler. -/
def handleEvent (p : TOCParser) : Event → TOCParser
  | .startTag tag attrs => handle_starttag p tag attrs
  | .endTag tag => handle_endtag p tag
  | .dataEv s => handle_data p s
  | .charrefEv s => handle_charref p s
  | .entityrefEv s => handle_entityref p s

/-! The tokenizer:

`tokenize` embeds the scanning behaviour of `html.parser.HTMLParser`
(`convert_charrefs = False`) on one line of input: tags `<name a="v" ...>`
and `</name>` (names and attribute names lowercased), character references
`&#NN;`, named entity references `&name;`, and everything else as character
data.  Incomplete constructs at the end of the line stay buffered in the
Python parser (which is never closed), so they produce no events. -/

def isTagNameChar (c : Char) : Bool :=
  c.isAlphanum || c == '-' || c == '_' || c == '.' || c == ':'

def isSpaceChar (c : Char) : Bool :=
  c == ' ' || c == '\t' || c == '\n' || c == '\r' || c == '\x0c'

def lowerStr (s : String) : String :=
  ⟨s.data.map Char.toLower⟩

/-- The single-quote character (code point 39). -/
def squoteChar : Char := Char.ofNat 39

/-- Parse the attribute section of a start tag; returns the attribute list
and the characters following the closing `>`, or `none` when the tag never
closes on this line (the event is then dropped, as the real parser keeps
it buffered). -/
def parseAttrs : Nat → List Char → List (String × String) →
    Option (List (String × String) × List Char)
  | 0, _, _ => none
  | _ + 1, [], _ => none
  | fuel + 1, c :: rest, acc =>
    if c == '>' then some (acc.reverse, rest)
    else if isSpaceChar c || c == '/' then parseAttrs fuel rest acc
    else
      let nmSpan := (c :: rest).span (fun ch => !(isSpaceChar ch) && ch != '=' && ch != '>' && ch != '/')
      let nm := lowerStr ⟨nmSpan.1⟩
      let afterNm := nmSpan.2.dropWhile isSpaceChar
      match afterNm with
      | '=' :: v0 =>
        let v1 := v0.dropWhile isSpaceChar
        match v1 with
        | '"' :: vrest =>
          let vSpan := vrest.span (fun ch => ch != '"')
          match vSpan.2 with
          | _ :: after => parseAttrs fuel after ((nm, ⟨vSpan.1⟩) :: acc)
          | [] => none
        | c1 :: vrest =>
          if c1 == squoteChar then
            let vSpan := vrest.span (fun ch => ch != squoteChar)
            match vSpan.2 with
            | _ :: after => parseAttrs fuel after ((nm, ⟨vSpan.1⟩) :: acc)
            | [] => none
          else
            let vSpan := (c1 :: vrest).span (fun ch => !(isSpaceChar ch) && ch != '>')
            parseAttrs fuel vSpan.2 ((nm, ⟨vSpan.1⟩) :: acc)
        | [] => parseAttrs fuel [] ((nm, "") :: acc)
      | _ =>
        -- attribute without a value: the library reports value None;
        -- modelled as the empty string (never exercised by `toc.py`)
        parseAttrs fuel afterNm ((nm, "") :: acc)

/-- Tokenize a list of characters into events, with fuel bounding the
number of scanning steps (each step consumes at least one character). -/
def tokenizeAux : Nat → List Char → List Event
  | 0, _ => []
  | _ + 1, [] => []
  | fuel + 1, '<' :: rest =>
    match rest with
    | '/' :: rest2 =>
      let nmSpan := rest2.span isTagNameChar
      (match nmSpan.1, (nmSpan.2.dropWhile (fun ch => ch != '>')) with
       | _ :: _, _ :: after => Event.endTag (lowerStr ⟨nmSpan.1⟩) :: tokenizeAux fuel after
       | _ :: _, [] => []
       | [], _ :: after => tokenizeAux fuel after
       | [], [] => [])
    | c2 :: _ =>
      if c2.isAlpha then
        let nmSpan := rest.span isTagNameChar
        match parseAttrs (nmSpan.2.length + 1) nmSpan.2 [] with
        | some (attrs, after) => Event.startTag (lowerStr ⟨nmSpan.1⟩) attrs :: tokenizeAux fuel after
        | none => []
      else
        Event.dataEv "<" :: tokenizeAux fuel rest
    | [] => []
  | fuel + 1, '&' :: rest =>
    match rest with
    | '#' :: rest2 =>
      let dSpan := rest2.span Char.isDigit
      (match dSpan.1, dSpan.2 with
       | _ :: _, ';' :: after => Event.charrefEv ⟨dSpan.1⟩ :: tokenizeAux fuel after
       | _ :: _, [] => []
       | _ :: _, after => Event.charrefEv ⟨dSpan.1⟩ :: tokenizeAux fuel after
       | [], _ => Event.dataEv "&" :: tokenizeAux fuel rest)
    | c2 :: _ =>
      if c2.isAlpha then
        let nSpan := rest.span Char.isAlphanum
        match nSpan.2 with
        | ';' :: after => Event.entityrefEv ⟨nSpan.1⟩ :: tokenizeAux fuel after
        | [] => []
        | after => Event.entityrefEv ⟨nSpan.1⟩ :: tokenizeAux fuel after
      else
        Event.dataEv "&" :: tokenizeAux fuel rest
    | [] => []
  | fuel + 1, c :: rest =>
    let run := (c :: rest).span (fun ch => ch != '<' && ch != '&')
    match run.1 with
    | [] => Event.dataEv ⟨[c]⟩ :: tokenizeAux fuel rest
    | _ :: _ => Event.dataEv ⟨run.1⟩ :: tokenizeAux fuel run.2

def tokenize (line : String) : List Event :=
  tokenizeAux line.length line.data

/-- Build a fresh `TOCParser`, feed it one line (`parser.feed(line)`), and
return its final state. -/
def feedLine (line : String) : TOCParser :=
  (tokenize line).foldl handleEvent ⟨false, none, ""⟩

/-- Embeds a lookup in the Python dict built by dict(attrs): the last
binding of a key wins, a missing key gives `none` (Python raises
KeyError, which the caller catches). -/
def pyDictGet (l : List (String × String)) (k : String) : Option String :=
  (l.reverse.find? (fun kv => kv.1 = k)).map (fun kv => kv.2)

/-- Embeds the lookup of key href in parser.attrs: `none` both when
attrs is None (unreachable under the guard that the title is non-empty)
and when the key is missing. -/
def hrefOf (p : TOCParser) : Option String :=
  match p.attrs with
  | none => none
  | some d => pyDictGet d "href"

/-! The tree builder, embedding the loop of the parse function. -/

/-- An open parent on the builder stack: title, url, and the children
accumulated so far.  Python keeps the `AnchorLink` object itself on the
`parents` list and mutates its `children`; the frame is the immutable
rendering (head of the list = top of the stack). -/
abbrev Frame := String × String × List AnchorLink

/-- Builder state across lines: the stack of open parents and the
top-level result forest (fields parents and ret in the source). -/
structure BuildState where
  parents : List Frame
  ret : List AnchorLink
deriving Repr

/-- Embeds the Python startswith test on strings (structural, so that it
evaluates by reduction). -/
def pyStartswith (s pre : String) : Bool :=
  pre.data.isPrefixOf s.data

/-- Embeds the Python endswith test on strings. -/
def pyEndswith (s suf : String) : Bool :=
  suf.data.isSuffixOf s.data

/-- Attaches the new node for a line: appended to the children of the top
open parent when the stack is non-empty, otherwise to the top level;
when the raw line ends in the text of an unordered-list opening the node
becomes the new top open parent instead (its attachment to the parent is
realized when it is popped or when input ends). -/
def attachNode (st : BuildState) (line : String) (title href : String) : BuildState :=
  if pyEndswith line "<ul>" then
    { st with parents := (title, href, []) :: st.parents }
  else
    match st.parents with
    | [] => { st with ret := st.ret ++ [AnchorLink.mk title href [] false] }
    | (t, u, cs) :: rest =>
      { st with parents := (t, u, cs ++ [AnchorLink.mk title href [] false]) :: rest }

/-- Pops one open parent (the branch of the builder for a line starting
with a closing-list marker): the popped frame becomes a completed node
attached to the frame below it, or to the top level.  Popping an empty
stack is a no-op. -/
def popParent (st : BuildState) : BuildState :=
  match st.parents with
  | [] => st
  | (t, u, cs) :: rest =>
    match rest with
    | [] => { parents := [], ret := st.ret ++ [AnchorLink.mk t u cs false] }
    | (t2, u2, cs2) :: r2 =>
      { parents := (t2, u2, cs2 ++ [AnchorLink.mk t u cs false]) :: r2, ret := st.ret }

/-- One iteration of the builder per-line loop:
feed the line to a fresh `TOCParser`; when a title was accumulated, look
up `href` (a missing key skips the line), then attach the new node to the
top open parent or the top level, pushing it as the new parent when the
raw line ends in `<ul>`; otherwise a line starting with `</ul>` pops one
open parent (no-op on an empty stack); all other lines are ignored. -/
def step (st : BuildState) (line : String) : BuildState :=
  let parser := feedLine line
  if parser.title ≠ "" then
    match hrefOf parser with
    | none => st
    | some href => attachNode st line parser.title href
  else
    if pyStartswith line "</ul>" then popParent st
    else st

/-- Close the remaining open parents when the input ends: each frame,
from the top of the stack down, becomes a node attached to the frame
below it (in Python the node was attached when created and mutated since;
this realizes the same tree). -/
def flushAux : List Frame → AnchorLink → List AnchorLink → List AnchorLink
  | [], node, ret => ret ++ [node]
  | (t, u, cs) :: rest, node, ret => flushAux rest (AnchorLink.mk t u (cs ++ [node]) false) ret

def flushParents : List Frame → List AnchorLink → List AnchorLink
  | [], ret => ret
  | (t, u, cs) :: rest, ret => flushAux rest (AnchorLink.mk t u cs false) ret

/-- Embeds the epilogue marking the first top-level node active, guarded
by the result forest being non-empty. -/
def markActive : List AnchorLink → List AnchorLink
  | [] => []
  | AnchorLink.mk t u cs _ :: rest => AnchorLink.mk t u cs true :: rest

/-- Embeds the Python splitlines method of str: split on the line-boundary characters,
treating `\r\n` as a single boundary and producing no trailing empty
line. -/
def isLineBreak (c : Char) : Bool :=
  c == '\n' || c == '\r' || c == '\x0b' || c == '\x0c' ||
  c == '\x1c' || c == '\x1d' || c == '\x1e' || c == '\x85' ||
  c == '\u2028' || c == '\u2029'

def splitlinesAux : List Char → List Char → List String
  | [], acc => if acc.isEmpty then [] else [⟨acc.reverse⟩]
  | '\r' :: '\n' :: rest, acc => (⟨acc.reverse⟩ : String) :: splitlinesAux rest []
  | c :: rest, acc =>
    if isLineBreak c then (⟨acc.reverse⟩ : String) :: splitlinesAux rest []
    else splitlinesAux rest (c :: acc)

def pySplitlines (s : String) : List String :=
  splitlinesAux s.data []

/-- Embeds the Python slice from index 2 to index -2: the elements from index 2 up to (and excluding)
index `length - 2`. -/
def pySlice2m2 (l : List String) : List String :=
  (l.drop 2).take (l.length - 4)

/-- The middle lines of the input: `html.splitlines()[2:-2]`. -/
def tocLines (html : String) : List String :=
  pySlice2m2 (pySplitlines html)

/-- Runs the builder loop and epilogue over a list of (middle) lines. -/
def buildFromLines (lines : List String) : List AnchorLink :=
  let st := lines.foldl step ⟨[], []⟩
  markActive (flushParents st.parents st.ret)

/-- Embeds the function of the same name from toc.py: split into lines,
drop the two-line wrappers, run the builder. -/
def _parse_html_table_of_contents (html : String) : List AnchorLink :=
  buildFromLines (tocLines html)

/-- Embeds class TableOfContents: the ordered forest of top-level anchor
links. -/
structure TableOfContents where
  items : List AnchorLink
deriving Repr

/-- Embeds the TableOfContents constructor. -/
def TableOfContents.ofHtml (html : String) : TableOfContents :=
  ⟨_parse_html_table_of_contents html⟩

mutual

/-- Embeds method indent_print of AnchorLink: four spaces per depth
level, then the title, a separator, the url, a newline, and the children
printed one level deeper. -/
def AnchorLink.indent_print : AnchorLink → Nat → String
  | .mk title url children _, depth =>
    String.join (List.replicate depth "    ") ++ title ++ " - " ++ url ++ "\n" ++
      indentPrintList children (depth + 1)

def indentPrintList : List AnchorLink → Nat → String
  | [], _ => ""
  | c :: rest, depth => AnchorLink.indent_print c depth ++ indentPrintList rest depth

end

/-- Embeds the string rendering of a TableOfContents: concatenation of
the indent_print of each top-level item at depth 0. -/
def TableOfContents.render (toc : TableOfContents) : String :=
  String.join (toc.items.map (fun item => item.indent_print 0))



/-! Instrumentation used by the theorems below: node counting, counting of
active flags, the per-line validity test, and an exception-aware variant
of the builder that makes the implicit Python failure points explicit. -/

mutual

/-- Counts one node and its descendants. -/
def countNode : AnchorLink → Nat
  | .mk _ _ cs _ => 1 + countForest cs

/-- Counts the nodes of a forest, descendants included. -/
def countForest : List AnchorLink → Nat
  | [] => 0
  | a :: rest => countNode a + countForest rest

end

/-- Counts the nodes held by a stack of open frames: each frame is one
(not yet realized) node plus its accumulated children. -/
def stackCount : List Frame → Nat
  | [] => 0
  | (_, _, cs) :: rest => 1 + countForest cs + stackCount rest

mutual

/-- Counts the set active flags of one node and its descendants. -/
def activeNode : AnchorLink → Nat
  | .mk _ _ cs a => (if a then 1 else 0) + activeForest cs

/-- Counts the nodes of a forest whose active flag is set. -/
def activeForest : List AnchorLink → Nat
  | [] => 0
  | a :: rest => activeNode a + activeForest rest

end

/-- Counts the active flags held by a stack of open frames (the node a
frame will realize is created inactive, so only its children count). -/
def stackActive : List Frame → Nat
  | [] => 0
  | (_, _, cs) :: rest => activeForest cs + stackActive rest

/-- A line is a valid anchor line when feeding it to a fresh parser yields
a non-empty title and a present href attribute: exactly the lines for
which the builder creates a node. -/
def validAnchorLine (line : String) : Bool :=
  (feedLine line).title != "" && (hrefOf (feedLine line)).isSome

/-- Exception-aware per-line step.  The Python failure points are made
explicit: subscripting attrs when it is None would raise a TypeError that
nothing catches (modelled as an error), while a missing key raises a
KeyError that the source catches with a continue (modelled as returning
the state unchanged).  Every other branch cannot raise. -/
def stepE (st : BuildState) (line : String) : Except String BuildState :=
  let parser := feedLine line
  if parser.title ≠ "" then
    match parser.attrs with
    | none => Except.error "TypeError: NoneType is not subscriptable"
    | some d =>
      match pyDictGet d "href" with
      | none => Except.ok st
      | some href => Except.ok (attachNode st line parser.title href)
  else
    if pyStartswith line "</ul>" then Except.ok (popParent st)
    else Except.ok st

/-- Exception-aware pipeline: the whole conversion, propagating any error
of `stepE`. -/
def parseE (html : String) : Except String (List AnchorLink) := do
  let st ← (tocLines html).foldlM stepE ⟨[], []⟩
  pure (markActive (flushParents st.parents st.ret))

/-! Concrete inputs used by the claims: a two-line wrapper around middle
lines, matching the fixed wrapper the upstream generator emits. -/

/-- Wraps middle lines in the standard two-line header and footer. -/
def wrapToc (middle : List String) : String :=
  "<div class=\"toc\">\n<ul>\n" ++ String.intercalate "\n" middle ++ "\n</ul>\n</div>"

/-- The four middle lines of the end-to-end scenario. -/
def middleC1 : List String :=
  ["<li><a href=\"#a\">A</a></li>",
   "<li><a href=\"#b\">B</a><ul>",
   "<li><a href=\"#c\">C</a></li>",
   "</ul></li>"]

/-- The end-to-end scenario input. -/
def htmlC1 : String := wrapToc middleC1

/-- A line holding two complete anchors in sequence. -/
def lineSeqAnchors : String := "<li><a href=\"#a\">A</a><a href=\"#x\">X</a></li>"

/-- A line holding an anchor start tag nested inside an open anchor. -/
def lineNestedAnchors : String := "<li><a href=\"#a\">A<a href=\"#x\">X</a>B</a></li>"

/-- A line whose anchor has an href attribute with an empty value. -/
def lineEmptyHref : String := "<li><a href=\"\">T</a></li>"

/-- A line whose anchor carries no href attribute at all. -/
def lineNoHref : String := "<li><a>Title</a></li>"

/-- A line holding character and entity references inside the anchor. -/
def lineRefs : String := "<li><a href=\"#a\">A&amp;B&#65;C</a></li>"

/-- Invariant of the parser state: whenever the parser is inside an anchor
or has accumulated any title text, an attribute list has been stored (the
Python attrs is no longer None).  This is what makes the unguarded
subscript of attrs safe in the builder. -/
def parserInv (p : TOCParser) : Prop :=
  (p.in_anchor = true → p.attrs.isSome) ∧ (p.title ≠ "" → p.attrs.isSome)

/-! Helper lemmas. -/

theorem buildFromLines_def (lines : List String) :
    buildFromLines lines =
      markActive (flushParents (lines.foldl step ⟨[], []⟩).parents
        (lines.foldl step ⟨[], []⟩).ret) := rfl

theorem countForest_append (l1 l2 : List AnchorLink) :
    countForest (l1 ++ l2) = countForest l1 + countForest l2 := by
  induction l1 with
  | nil => simp [countForest]
  | cons a rest ih => simp [countForest, ih]; omega

theorem activeForest_append (l1 l2 : List AnchorLink) :
    activeForest (l1 ++ l2) = activeForest l1 + activeForest l2 := by
  induction l1 with
  | nil => simp [activeForest]
  | cons a rest ih => simp [activeForest, ih]; omega

theorem attachNode_count (st : BuildState) (line title href : String) :
    stackCount (attachNode st line title href).parents +
        countForest (attachNode st line title href).ret =
      stackCount st.parents + countForest st.ret + 1 := by
  obtain ⟨ps, ret⟩ := st
  unfold attachNode
  cases hb : pyEndswith line "<ul>"
  · cases ps with
    | nil => simp [stackCount, countForest_append, countForest, countNode]
    | cons f rest =>
      obtain ⟨t, u, cs⟩ := f
      simp [stackCount, countForest_append, countForest, countNode]
      omega
  · simp [stackCount, countForest]
    omega

theorem popParent_count (st : BuildState) :
    stackCount (popParent st).parents + countForest (popParent st).ret =
      stackCount st.parents + countForest st.ret := by
  obtain ⟨ps, ret⟩ := st
  unfold popParent
  cases ps with
  | nil => rfl
  | cons f rest =>
    obtain ⟨t, u, cs⟩ := f
    cases rest with
    | nil =>
      simp [stackCount, countForest_append, countForest, countNode]
      omega
    | cons f2 r2 =>
      obtain ⟨t2, u2, cs2⟩ := f2
      simp [stackCount, countForest_append, countForest, countNode]
      omega

theorem step_count (st : BuildState) (line : String) :
    stackCount (step st line).parents + countForest (step st line).ret =
      stackCount st.parents + countForest st.ret +
        (if validAnchorLine line then 1 else 0) := by
  by_cases hT : (feedLine line).title = ""
  · have hv : validAnchorLine line = false := by
      simp [validAnchorLine, hT]
    rw [hv]
    simp only [step, if_neg (not_not_intro hT)]
    cases hs : pyStartswith line "</ul>"
    · simp
    · simp [popParent_count]
  · cases hh : hrefOf (feedLine line) with
    | none =>
      have hv : validAnchorLine line = false := by
        simp [validAnchorLine, hh]
      rw [hv]
      simp only [step, if_pos hT, hh]
      simp
    | some href =>
      have hv : validAnchorLine line = true := by
        simp [validAnchorLine, hh, hT]
      rw [hv]
      simp only [step, if_pos hT, hh]
      simp [attachNode_count]

theorem fold_count (lines : List String) : ∀ st : BuildState,
    stackCount (lines.foldl step st).parents + countForest (lines.foldl step st).ret =
      stackCount st.parents + countForest st.ret +
        (lines.filter validAnchorLine).length := by
  induction lines with
  | nil => intro st; simp
  | cons l rest ih =>
    intro st
    simp only [List.foldl_cons, List.filter_cons]
    rw [ih (step st l), step_count]
    cases validAnchorLine l
    · simp
    · simp
      omega

theorem flushAux_count (ps : List Frame) : ∀ (node : AnchorLink) (ret : List AnchorLink),
    countForest (flushAux ps node ret) = stackCount ps + countNode node + countForest ret := by
  induction ps with
  | nil =>
    intro node ret
    simp [flushAux, countForest_append, countForest, stackCount]
    omega
  | cons f rest ih =>
    obtain ⟨t, u, cs⟩ := f
    intro node ret
    simp [flushAux, ih, stackCount, countNode, countForest_append, countForest]
    omega

theorem flushParents_count (ps : List Frame) (ret : List AnchorLink) :
    countForest (flushParents ps ret) = stackCount ps + countForest ret := by
  cases ps with
  | nil => simp [flushParents, stackCount]
  | cons f rest =>
    obtain ⟨t, u, cs⟩ := f
    simp [flushParents, flushAux_count, stackCount, countNode]
    omega

theorem markActive_count (l : List AnchorLink) :
    countForest (markActive l) = countForest l := by
  cases l with
  | nil => rfl
  | cons a rest => cases a; simp [markActive, countForest, countNode]

theorem buildFromLines_count (lines : List String) :
    countForest (buildFromLines lines) = (lines.filter validAnchorLine).length := by
  rw [buildFromLines_def, markActive_count, flushParents_count]
  have h := fold_count lines ⟨[], []⟩
  simpa [stackCount, countForest] using h

theorem attachNode_active (st : BuildState) (line title href : String) :
    stackActive (attachNode st line title href).parents +
        activeForest (attachNode st line title href).ret =
      stackActive st.parents + activeForest st.ret := by
  obtain ⟨ps, ret⟩ := st
  unfold attachNode
  cases hb : pyEndswith line "<ul>"
  · cases ps with
    | nil => simp [stackActive, activeForest_append, activeForest, activeNode]
    | cons f rest =>
      obtain ⟨t, u, cs⟩ := f
      simp [stackActive, activeForest_append, activeForest, activeNode]
  · simp [stackActive, activeForest]

theorem popParent_active (st : BuildState) :
    stackActive (popParent st).parents + activeForest (popParent st).ret =
      stackActive st.parents + activeForest st.ret := by
  obtain ⟨ps, ret⟩ := st
  unfold popParent
  cases ps with
  | nil => rfl
  | cons f rest =>
    obtain ⟨t, u, cs⟩ := f
    cases rest with
    | nil =>
      simp [stackActive, activeForest_append, activeForest, activeNode]
      omega
    | cons f2 r2 =>
      obtain ⟨t2, u2, cs2⟩ := f2
      simp [stackActive, activeForest_append, activeForest, activeNode]
      omega

theorem step_active (st : BuildState) (line : String) :
    stackActive (step st line).parents + activeForest (step st line).ret =
      stackActive st.parents + activeForest st.ret := by
  by_cases hT : (feedLine line).title = ""
  · simp only [step, if_neg (not_not_intro hT)]
    cases hs : pyStartswith line "</ul>"
    · simp
    · simp [popParent_active]
  · cases hh : hrefOf (feedLine line) with
    | none => simp only [step, if_pos hT, hh]
    | some href =>
      simp only [step, if_pos hT, hh]
      simp [attachNode_active]

theorem fold_active (lines : List String) : ∀ st : BuildState,
    stackActive (lines.foldl step st).parents + activeForest (lines.foldl step st).ret =
      stackActive st.parents + activeForest st.ret := by
  induction lines with
  | nil => intro st; simp
  | cons l rest ih =>
    intro st
    simp only [List.foldl_cons]
    rw [ih (step st l), step_active]

theorem flushAux_active (ps : List Frame) : ∀ (node : AnchorLink) (ret : List AnchorLink),
    activeForest (flushAux ps node ret) = stackActive ps + activeNode node + activeForest ret := by
  induction ps with
  | nil =>
    intro node ret
    simp [flushAux, activeForest_append, activeForest, stackActive]
    omega
  | cons f rest ih =>
    obtain ⟨t, u, cs⟩ := f
    intro node ret
    simp [flushAux, ih, stackActive, activeNode, activeForest_append, activeForest]
    omega

theorem flushParents_active (ps : List Frame) (ret : List AnchorLink) :
    activeForest (flushParents ps ret) = stackActive ps + activeForest ret := by
  cases ps with
  | nil => simp [flushParents, stackActive]
  | cons f rest =>
    obtain ⟨t, u, cs⟩ := f
    simp [flushParents, flushAux_active, stackActive, activeNode]
    omega

theorem markActive_length (l : List AnchorLink) :
    (markActive l).length = l.length := by
  cases l with
  | nil => rfl
  | cons a rest => cases a; rfl

theorem activeForest_markActive (l : List AnchorLink) (h : activeForest l = 0) :
    activeForest (markActive l) = min 1 l.length := by
  cases l with
  | nil => simp [markActive, activeForest]
  | cons a rest =>
    cases a with
    | mk t u cs act =>
      simp [activeForest, activeNode] at h
      simp [markActive, activeForest, activeNode]
      omega

theorem markActive_head (l : List AnchorLink) :
    (match markActive l with
     | [] => True
     | h :: _ => h.active = true) := by
  cases l with
  | nil => trivial
  | cons a rest => cases a; simp [markActive, AnchorLink.active]

theorem buildFromLines_active (lines : List String) :
    activeForest (buildFromLines lines) = min 1 (buildFromLines lines).length := by
  rw [buildFromLines_def, markActive_length]
  have hz : activeForest (flushParents (lines.foldl step ⟨[], []⟩).parents
      (lines.foldl step ⟨[], []⟩).ret) = 0 := by
    rw [flushParents_active]
    have h := fold_active lines ⟨[], []⟩
    simpa [stackActive, activeForest] using h
  rw [activeForest_markActive _ hz]

theorem handleEvent_inv (p : TOCParser) (e : Event) (h : parserInv p) :
    parserInv (handleEvent p e) := by
  obtain ⟨h1, h2⟩ := h
  cases e with
  | startTag tag attrs =>
    simp only [handleEvent, handle_starttag]
    by_cases ha : p.in_anchor
    · simpa [ha] using ⟨h1, h2⟩
    · by_cases ht : tag = "a"
      · simp [ha, ht, parserInv]
      · simpa [ha, ht] using ⟨h1, h2⟩
  | endTag tag =>
    simp only [handleEvent, handle_endtag]
    by_cases ht : tag = "a"
    · simp only [ht, if_pos rfl]
      exact ⟨fun hc => Bool.noConfusion hc, h2⟩
    · simpa [ht] using ⟨h1, h2⟩
  | dataEv s =>
    simp only [handleEvent, handle_data]
    by_cases ha : p.in_anchor
    · simp only [ha, if_pos rfl]
      exact ⟨fun _ => h1 ha, fun _ => h1 ha⟩
    · simpa [ha] using ⟨h1, h2⟩
  | charrefEv s =>
    simp only [handleEvent, handle_charref, handle_entityref, handle_data]
    by_cases ha : p.in_anchor
    · simp only [ha, if_pos rfl]
      exact ⟨fun _ => h1 ha, fun _ => h1 ha⟩
    · simpa [ha] using ⟨h1, h2⟩
  | entityrefEv s =>
    simp only [handleEvent, handle_entityref, handle_data]
    by_cases ha : p.in_anchor
    · simp only [ha, if_pos rfl]
      exact ⟨fun _ => h1 ha, fun _ => h1 ha⟩
    · simpa [ha] using ⟨h1, h2⟩

theorem foldl_handleEvent_inv (events : List Event) : ∀ p : TOCParser,
    parserInv p → parserInv (events.foldl handleEvent p) := by
  induction events with
  | nil => intro p h; exact h
  | cons e rest ih => intro p h; exact ih _ (handleEvent_inv p e h)

theorem feedLine_inv (line : String) : parserInv (feedLine line) := by
  unfold feedLine
  refine foldl_handleEvent_inv _ _ ⟨?_, ?_⟩
  · intro hc; cases hc
  · intro hc; exact absurd rfl hc

theorem stepE_ok (st : BuildState) (line : String) :
    stepE st line = Except.ok (step st line) := by
  have hinv := feedLine_inv line
  by_cases hT : (feedLine line).title = ""
  · simp only [stepE, step, if_neg (not_not_intro hT)]
    rw [apply_ite Except.ok]
  · obtain ⟨d, hd⟩ := Option.isSome_iff_exists.mp (hinv.2 hT)
    have hh : hrefOf (feedLine line) = pyDictGet d "href" := by
      unfold hrefOf
      rw [hd]
    simp only [stepE, step, if_pos hT, hd, hh]
    cases pyDictGet d "href" <;> rfl

theorem foldlM_stepE_ok (lines : List String) : ∀ st : BuildState,
    lines.foldlM stepE st = Except.ok (lines.foldl step st) := by
  induction lines with
  | nil => intro st; rfl
  | cons l rest ih =>
    intro st
    rw [List.foldlM_cons, stepE_ok]
    simpa using ih (step st l)

theorem step_skip (st : BuildState) (line : String)
    (hT : (feedLine line).title ≠ "") (hH : hrefOf (feedLine line) = none) :
    step st line = st := by
  simp only [step, if_pos hT, hH]

theorem step_closeUl_noop (st : BuildState) (h : st.parents = []) :
    step st "</ul>" = st := by
  have hT : (feedLine "</ul>").title = "" := rfl
  simp only [step, if_neg (not_not_intro hT)]
  obtain ⟨ps, ret⟩ := st
  simp only at h
  subst h
  simp [popParent]

/-! The claims. -/

/-- C1: for the input whose middle lines (after stripping the two-line
wrapper) are the four scenario lines, the constructed forest is node A
with url "#a", then node B with url "#b" whose children are node C with
url "#c"; node A alone is active; and the rendering is
"A - #a\nB - #b\n    C - #c\n" (four spaces of indent per depth level,
each line formatted as title, separator, url). -/
theorem claim_C1 :
    buildFromLines middleC1 =
      [AnchorLink.mk "A" "#a" [] true,
       AnchorLink.mk "B" "#b" [AnchorLink.mk "C" "#c" [] false] false] ∧
    _parse_html_table_of_contents htmlC1 =
      [AnchorLink.mk "A" "#a" [] true,
       AnchorLink.mk "B" "#b" [AnchorLink.mk "C" "#c" [] false] false] ∧
    (TableOfContents.ofHtml htmlC1).render = "A - #a\nB - #b\n    C - #c\n" :=
  ⟨rfl, rfl, rfl⟩

/-- C2: the total number of AnchorLink nodes in the constructed tree
(top-level nodes plus all descendants) equals the number N of middle
lines that parse to a valid anchor (non-empty title, present href).  The
theorem is unconditional: it holds for every input, so in particular for
inputs with balanced nesting and one anchor per line. -/
theorem claim_C2 (html : String) :
    countForest (_parse_html_table_of_contents html) =
      ((tocLines html).filter validAnchorLine).length :=
  buildFromLines_count (tocLines html)

/-- C3: after construction the number of nodes with the active flag set is
one when the forest is non-empty and zero when it is empty (so exactly
one node is active in the non-empty case), and the active node is the
first top-level one. -/
theorem claim_C3 (html : String) :
    activeForest (_parse_html_table_of_contents html) =
      min 1 (_parse_html_table_of_contents html).length ∧
    (match _parse_html_table_of_contents html with
     | [] => True
     | h :: _ => h.active = true) := by
  refine ⟨buildFromLines_active (tocLines html), ?_⟩
  exact markActive_head (flushParents ((tocLines html).foldl step ⟨[], []⟩).parents
    ((tocLines html).foldl step ⟨[], []⟩).ret)

/-- C4: a line whose anchor accumulated a non-empty title but has no href
attribute contributes no node and mutates nothing, so the tree built with
the line present equals the tree built with the line absent, whatever
comes before and after it. -/
theorem claim_C4 (pre post : List String) (line : String)
    (hT : (feedLine line).title ≠ "") (hH : hrefOf (feedLine line) = none) :
    buildFromLines (pre ++ line :: post) = buildFromLines (pre ++ post) := by
  rw [buildFromLines_def, buildFromLines_def, List.foldl_append, List.foldl_append,
    List.foldl_cons, step_skip _ _ hT hH]

/-- Witness for C4 at the concrete line with a missing href. -/
theorem claim_C4_witness :
    buildFromLines ([] ++ lineNoHref :: []) = buildFromLines ([] ++ ([] : List String)) :=
  claim_C4 [] [] lineNoHref (by decide) rfl

/-- C5: an extra trailing closing-list line beyond the open parents is a
no-op: when the stack is empty after the other lines, appending the extra
line yields the identical tree. -/
theorem claim_C5 (lines : List String)
    (h : (lines.foldl step ⟨[], []⟩).parents = []) :
    buildFromLines (lines ++ ["</ul>"]) = buildFromLines lines := by
  rw [buildFromLines_def, buildFromLines_def, List.foldl_append, List.foldl_cons,
    List.foldl_nil, step_closeUl_noop _ h]

/-- Witness for C5 at a concrete balanced input. -/
theorem claim_C5_witness :
    buildFromLines (["<li><a href=\"#a\">A</a></li>"] ++ ["</ul>"]) =
      buildFromLines ["<li><a href=\"#a\">A</a></li>"] :=
  claim_C5 ["<li><a href=\"#a\">A</a></li>"] rfl

/-- C6 counterexample: on a line with two complete anchors the node keeps
the concatenated title "AX" of both anchors and the href "#x" of the
second anchor, not the title "A" and href "#a" of the first anchor as the
claim states. -/
theorem claim_C6_cex :
    buildFromLines [lineSeqAnchors] = [AnchorLink.mk "AX" "#x" [] true] ∧
    ("AX" : String) ≠ "A" ∧ ("#x" : String) ≠ "#a" :=
  ⟨rfl, by decide, by decide⟩

/-- C6 amended: an anchor start tag seen while an anchor is open is
ignored entirely (first open anchor wins until it closes), but an anchor
start tag after the previous anchor closed re-opens accumulation and
overwrites the stored attributes; hence the node takes its href from the
last anchor start tag handled outside an open anchor and its title
concatenates the text inside all handled anchors: the sequential-anchor
line yields title "AX" with url "#x", while the nested-anchor line yields
title "AX" with url "#a". -/
theorem claim_C6_amended :
    (∀ (p : TOCParser) (tag : String) (attrs : List (String × String)),
      p.in_anchor = true → handle_starttag p tag attrs = p) ∧
    buildFromLines [lineSeqAnchors] = [AnchorLink.mk "AX" "#x" [] true] ∧
    buildFromLines [lineNestedAnchors] = [AnchorLink.mk "AX" "#a" [] true] := by
  refine ⟨?_, rfl, rfl⟩
  intro p tag attrs h
  simp [handle_starttag, h]

/-- Witness for the amended C6: a start tag arriving while an anchor is
open leaves the parser state unchanged. -/
theorem claim_C6_amended_witness :
    handle_starttag ⟨true, some [("href", "#a")], "A"⟩ "a" [("href", "#x")] =
      ⟨true, some [("href", "#a")], "A"⟩ :=
  claim_C6_amended.1 ⟨true, some [("href", "#a")], "A"⟩ "a" [("href", "#x")] rfl

/-- C7: the conversion is total.  The exception-aware builder, in which
the unguarded Python failure points are explicit errors, always returns
ok with exactly the tree of the pure builder: no input makes any
unhandled exception reachable. -/
theorem claim_C7 (html : String) :
    parseE html = Except.ok (_parse_html_table_of_contents html) := by
  unfold parseE
  rw [foldlM_stepE_ok]
  rfl

/-- C8: character and entity references inside an anchor are re-encoded
verbatim into the title rather than decoded: a character reference with
code NN appends the literal text of an ampersand, a hash, NN and a
semicolon; a named reference appends an ampersand, the name and a
semicolon; end to end, the anchor text with references survives
untouched in the accumulated title. -/
theorem claim_C8 :
    (∀ (p : TOCParser) (ref : String), p.in_anchor = true →
      (handle_charref p ref).title = p.title ++ "&#" ++ ref ++ ";" ∧
      (handle_entityref p ref).title = p.title ++ "&" ++ ref ++ ";") ∧
    (feedLine lineRefs).title = "A&amp;B&#65;C" := by
  refine ⟨?_, rfl⟩
  intro p ref h
  constructor
  · show (handle_data p ("&" ++ ("#" ++ ref) ++ ";")).title = _
    simp only [handle_data, h, if_pos rfl]
    have h1 : ("&" ++ ("#" ++ ref) : String) = "&#" ++ ref := by
      rw [← String.append_assoc]
      rfl
    simp [h1, String.append_assoc]
  · show (handle_data p ("&" ++ ref ++ ";")).title = _
    simp only [handle_data, h, if_pos rfl]
    simp [String.append_assoc]

/-- Witness for C8 at a concrete parser state and reference. -/
theorem claim_C8_witness :
    (handle_charref ⟨true, some [], "T"⟩ "65").title = "T" ++ "&#" ++ "65" ++ ";" ∧
    (handle_entityref ⟨true, some [], "T"⟩ "65").title = "T" ++ "&" ++ "65" ++ ";" :=
  claim_C8.1 ⟨true, some [], "T"⟩ "65" rfl

/-- C9: when splitting the input yields at most four lines, nothing
remains after dropping the two leading and two trailing wrapper lines,
so the constructed forest is empty. -/
theorem claim_C9 (html : String) (h : (pySplitlines html).length ≤ 4) :
    _parse_html_table_of_contents html = [] := by
  have hl : tocLines html = [] := by
    unfold tocLines pySlice2m2
    rw [Nat.sub_eq_zero_of_le h]
    simp
  unfold _parse_html_table_of_contents
  rw [hl]
  rfl

/-- Witness for C9 at a three-line input. -/
theorem claim_C9_witness : _parse_html_table_of_contents "ab\ncd\nef" = [] :=
  claim_C9 "ab\ncd\nef" (by decide)

/-- C10: an anchor whose href attribute is present with an empty value is
not dropped: generally, any line with a non-empty title and a present
href (whatever its value, the empty string included) adds exactly one
node to the tree; and concretely the empty-href line produces a node
whose url is the empty string. -/
theorem claim_C10 :
    (∀ (pre post : List String) (line u : String),
      (feedLine line).title ≠ "" → hrefOf (feedLine line) = some u →
      countForest (buildFromLines (pre ++ line :: post)) =
        countForest (buildFromLines (pre ++ post)) + 1) ∧
    buildFromLines [lineEmptyHref] = [AnchorLink.mk "T" "" [] true] := by
  refine ⟨?_, rfl⟩
  intro pre post line u hT hH
  rw [buildFromLines_count, buildFromLines_count]
  have hv : validAnchorLine line = true := by
    simp [validAnchorLine, hT, hH]
  simp [List.filter_append, List.filter_cons, hv]
  omega

/-- Witness for C10 at the concrete line with an empty href value. -/
theorem claim_C10_witness :
    countForest (buildFromLines ([] ++ lineEmptyHref :: [])) =
      countForest (buildFromLines ([] ++ ([] : List String))) + 1 :=
  claim_C10.1 [] [] lineEmptyHref "" (by decide) rfl

end Mkdocs
